import Mathlib

/-!
A shallow embedding of the depthmap orchestration pipeline of opensfm/dense.py:
geometry queries, neighbor selection, depth range estimation, the common-track
table, the three per-shot stage runners and point-cloud merging, together with
proofs of the specified properties.

Real-valued quantities of the Python code (numpy floats) are modelled as real
numbers; Python dicts are modelled as association lists with first-occurrence
lookup and in-place update, which matches dict insertion-order semantics.
-/

open Real

/-- A 3D vector (point coordinates, translations, camera centers). -/
structure Vec3 where
  x : ℝ
  y : ℝ
  z : ℝ

/-- Dot product of two vectors. -/
noncomputable def dotv (a b : Vec3) : ℝ := a.x * b.x + a.y * b.y + a.z * b.z

/-- Componentwise difference of two vectors. -/
noncomputable def subv (a b : Vec3) : Vec3 := ⟨a.x - b.x, a.y - b.y, a.z - b.z⟩

/-- A camera pose: the three rows of the world-to-camera rotation matrix
(pose.get_rotation_matrix()) and the translation (pose.translation). -/
structure Pose where
  r0 : Vec3
  r1 : Vec3
  r2 : Vec3
  t : Vec3

/-- pose.transform(p): world-to-camera map R p + t. -/
noncomputable def Pose.transform (pose : Pose) (p : Vec3) : Vec3 :=
  ⟨dotv pose.r0 p + pose.t.x, dotv pose.r1 p + pose.t.y, dotv pose.r2 p + pose.t.z⟩

/-- pose.get_origin(): the camera center, -transpose(R) t. -/
noncomputable def Pose.get_origin (pose : Pose) : Vec3 :=
  ⟨-(pose.r0.x * pose.t.x + pose.r1.x * pose.t.y + pose.r2.x * pose.t.z),
   -(pose.r0.y * pose.t.x + pose.r1.y * pose.t.y + pose.r2.y * pose.t.z),
   -(pose.r0.z * pose.t.x + pose.r1.z * pose.t.y + pose.r2.z * pose.t.z)⟩

/-- A shot: image id plus pose.  (Camera intrinsics play no role in the
properties verified here and are omitted from the shot record.) -/
structure Shot where
  id : String
  pose : Pose

/-- Association list lookup: the value at the first matching key, as in a
Python dict access. -/
def alookup (k : String) : List (String × β) → Option β
  | [] => none
  | (k2, v) :: rest => if k2 = k then some v else alookup k rest

/-- The undistorted reconstruction: shot id to shot, track id to the
coordinates of the reconstructed 3D point. -/
structure Reconstruction where
  shots : List (String × Shot)
  points : List (String × Vec3)

/-- The tracks graph: each shot id with the list of track ids it observes. -/
abbrev TracksManager : Type := List (String × List String)

/-- tracks_manager.get_shot_ids(). -/
def get_shot_ids (g : TracksManager) : List String :=
  g.map Prod.fst

/-- tracks_manager.get_shot_observations(shot_id): the track ids observed by a
shot (empty when the shot is unknown to the graph). -/
def get_shot_observations (g : TracksManager) (i : String) : List String :=
  (alookup i g).getD []

/-- angle_between_points(origin, p1, p2) from dense.py: the angle at origin
between the rays towards p1 and p2, via arccos of the normalized dot product. -/
noncomputable def angle_between_points (origin p1 p2 : Vec3) : ℝ :=
  let a := subv p1 origin
  let b := subv p2 origin
  Real.arccos (dotv a b / Real.sqrt (dotv a a * dotv b b))

/-- The lower angle threshold pi/60 used by find_neighboring_images. -/
noncomputable def theta_min : ℝ := Real.pi / 60

/-- The upper angle threshold pi/6 used by find_neighboring_images. -/
noncomputable def theta_max : ℝ := Real.pi / 6

/-- The score accumulation loop of find_neighboring_images: the number of
tracks in the list whose reconstructed 3D point sees the two camera centers
under an angle strictly between theta_min and theta_max. -/
noncomputable def track_score (recon : Reconstruction) (c1 c2 : Vec3) :
    List String → ℕ
  | [] => 0
  | track :: rest =>
      (match alookup track recon.points with
       | none => 0
       | some p =>
           if theta_min < angle_between_points p c1 c2 ∧
               angle_between_points p c1 c2 < theta_max then 1 else 0) +
        track_score recon c1 c2 rest

/-- The candidate collection loop of find_neighboring_images: walk the
common-track row of the target shot, skip candidate ids missing from the
reconstruction, keep a candidate together with its score when the score
exceeds 20. -/
noncomputable def candidate_list (shot : Shot) (recon : Reconstruction) :
    List (String × List String) → List (Shot × ℕ)
  | [] => []
  | (other_id, tracks) :: rest =>
      match alookup other_id recon.shots with
      | none => candidate_list shot recon rest
      | some other =>
          let s := track_score recon shot.pose.get_origin other.pose.get_origin tracks
          if s > 20 then (other, s) :: candidate_list shot recon rest
          else candidate_list shot recon rest

/-- Python list.sort(key=score, reverse=True): a stable sort by descending
score. -/
def sort_by_score_desc (l : List (Shot × ℕ)) : List (Shot × ℕ) :=
  List.insertionSort (fun a b => b.2 ≤ a.2) l

/-- The sorted surviving candidate list of find_neighboring_images (the
variable ns after the sort). -/
noncomputable def sorted_candidates (shot : Shot)
    (common_tracks : List (String × List (String × List String)))
    (recon : Reconstruction) : List (Shot × ℕ) :=
  sort_by_score_desc
    (candidate_list shot recon ((alookup shot.id common_tracks).getD []))

/-- find_neighboring_images from dense.py: the target shot followed by the
best-scoring surviving candidates, truncated to the neighbor budget. -/
noncomputable def find_neighboring_images (shot : Shot)
    (common_tracks : List (String × List (String × List String)))
    (recon : Reconstruction) (num_neighbors : ℕ) : List Shot :=
  shot :: ((sorted_candidates shot common_tracks recon).take num_neighbors).map Prod.fst

/-- np.percentile(l, q) with the default linear interpolation: sort
ascending, take the fractional index (n-1) * q/100 and interpolate between the
two enclosing entries.  Only meaningful for a nonempty list; the caller in
dense.py errors out on an empty one. -/
noncomputable def percentile (l : List ℝ) (q : ℝ) : ℝ :=
  let s := List.insertionSort (fun a b : ℝ => a ≤ b) l
  let h : ℝ := ((l.length : ℝ) - 1) * q / 100
  let i : ℕ := (⌊h⌋).toNat
  s.getD i 0 + (h - ⌊h⌋) * (s.getD (i + 1) 0 - s.getD i 0)

/-- The configuration keys of dense.py used by the embedded functions. -/
structure Config where
  depthmap_min_depth : ℝ
  depthmap_max_depth : ℝ
  depthmap_method : String
  depthmap_min_correlation_score : ℝ
  depthmap_num_matching_views : ℕ
  depthmap_patchmatch_iterations : ℕ
  depthmap_patch_size : ℕ
  depthmap_min_patch_sd : ℝ
  depthmap_same_depth_threshold : ℝ
  depthmap_min_consistent_views : ℕ

/-- The depth collection loop of compute_depth_range: the camera-relative
depth (third coordinate of the pose-transformed point) for every observed
track having a reconstructed 3D point. -/
noncomputable def shot_depths (g : TracksManager) (recon : Reconstruction)
    (shot : Shot) : List ℝ :=
  (get_shot_observations g shot.id).filterMap fun track =>
    (alookup track recon.points).map fun p => (shot.pose.transform p).z

/-- compute_depth_range from dense.py.  np.percentile raises on an empty
sequence, so the empty-depths case is an error (none); otherwise the bounds
are the expanded 10th/90th percentiles, each independently replaced by the
corresponding configured bound when that bound is non-zero (Python or). -/
noncomputable def compute_depth_range (g : TracksManager)
    (recon : Reconstruction) (shot : Shot) (config : Config) : Option (ℝ × ℝ) :=
  let depths := shot_depths g recon shot
  if depths.isEmpty then none
  else
    let min_depth := percentile depths 10 * 0.9
    let max_depth := percentile depths 90 * 1.1
    some
      (if config.depthmap_min_depth = 0 then min_depth else config.depthmap_min_depth,
       if config.depthmap_max_depth = 0 then max_depth else config.depthmap_max_depth)

/-- The tracks shared by two shots of the graph, in the observation order of
the first shot. -/
def shared_tracks (g : TracksManager) (a b : String) : List String :=
  (get_shot_observations g a).filter fun t => t ∈ get_shot_observations g b

/-- All ordered pairs of list positions i < j (each unordered pair once). -/
def ordered_pairs : List String → List (String × String)
  | [] => []
  | x :: rest => (rest.map fun y => (x, y)) ++ ordered_pairs rest

/-- Modelled from the spec: tracking.all_common_tracks_without_features is not
part of the given source file; per the spec it produces, for every pair of
shots of the track graph co-observing at least one track, the list of their
shared track ids. -/
def all_common_tracks_without_features (g : TracksManager) :
    List ((String × String) × List String) :=
  (ordered_pairs (get_shot_ids g)).filterMap fun ab =>
    let v := shared_tracks g ab.1 ab.2
    if v.isEmpty then none else some (ab, v)

/-- Python dict assignment d[k] = v: replace the value at an existing key in
place, append a brand-new key at the end. -/
def insertKV (k : String) (v : β) : List (String × β) → List (String × β)
  | [] => [(k, v)]
  | (k2, v2) :: rest =>
      if k2 = k then (k2, v) :: rest else (k2, v2) :: insertKV k v rest

/-- Update the value stored at the first occurrence of a key (no-op when the
key is absent); res[k] is assumed present in the Python code. -/
def updAt (k : String) (f : β → β) : List (String × β) → List (String × β)
  | [] => []
  | (k2, v2) :: rest =>
      if k2 = k then (k2, f v2) :: rest else (k2, v2) :: updAt k f rest

/-- One loop iteration of common_tracks_double_dict: res[im1][im2] = v then
res[im2][im1] = v. -/
def ct_step (res : List (String × List (String × List String)))
    (e : (String × String) × List String) :
    List (String × List (String × List String)) :=
  updAt e.1.2 (fun d => insertKV e.1.1 e.2 d)
    (updAt e.1.1 (fun d => insertKV e.1.2 e.2 d) res)

/-- common_tracks_double_dict from dense.py: start from one empty inner dict
per shot id of the graph, then record each co-observing pair in both
directions. -/
def common_tracks_double_dict (g : TracksManager) :
    List (String × List (String × List String)) :=
  ((all_common_tracks_without_features g).foldl ct_step
    ((get_shot_ids g).map fun i => (i, ([] : List (String × List String)))))

/-- Nested table lookup: table[a][b] as an optional track list. -/
def lookup2 (table : List (String × List (String × List String)))
    (a b : String) : Option (List String) :=
  (alookup a table).bind (alookup b)

/-- The raw depthmap artifact saved by the estimate stage: depth, plane,
score and selected-neighbor maps (flattened pixel lists) plus the ids of the
neighbors used. -/
structure RawDepthmap where
  depth : List ℝ
  plane : List Vec3
  score : List ℝ
  nghbr : List ℕ
  neighbor_ids : List String

/-- The clean depthmap artifact saved by the clean stage. -/
structure CleanDepthmap where
  depth : List ℝ
  plane : List Vec3
  score : List ℝ

/-- The pruned depthmap artifact saved by the prune stage. -/
structure PrunedDepthmap where
  points : List Vec3
  normals : List Vec3
  colors : List Vec3
  labels : List ℕ

/-- The artifact store of the undistorted dataset: per shot id, the saved raw,
clean and pruned depthmaps; a some value is an existing artifact file, so
data.raw_depthmap_exists(i) is (raw i).isSome and so on. -/
structure DataSet where
  raw : String → Option RawDepthmap
  clean : String → Option CleanDepthmap
  pruned : String → Option PrunedDepthmap

/-- The inputs assembled for one DepthmapEstimator invocation: the configured
depth range and search parameters plus the ids of the shots whose views were
added (the underlying pixel data is out-of-scope imagery determined by those
ids). -/
structure EstimatorCall where
  min_depth : ℝ
  max_depth : ℝ
  num_depth_samples : ℕ
  patchmatch_iterations : ℕ
  patch_size : ℕ
  min_patch_sd : ℝ
  views : List String

/-- The inputs assembled for one DepthmapCleaner invocation: thresholds plus,
for every contributing shot, its id and its raw depth map. -/
structure CleanerCall where
  same_depth_threshold : ℝ
  min_consistent_views : ℕ
  views : List (String × List ℝ)

/-- The inputs assembled for one DepthmapPruner invocation: the threshold
plus, for every contributing shot, its id and its clean depth and plane
maps. -/
structure PrunerCall where
  same_depth_threshold : ℝ
  views : List (String × List ℝ × List Vec3)

/-- The external numerical capabilities of the pydense module, abstracted as
functions of the assembled inputs; their numerical bodies are out of scope
for the orchestration core. -/
structure Pydense where
  compute_brute_force : EstimatorCall → List ℝ × List Vec3 × List ℝ × List ℕ
  compute_patch_match : EstimatorCall → List ℝ × List Vec3 × List ℝ × List ℕ
  compute_patch_match_sample : EstimatorCall → List ℝ × List Vec3 × List ℝ × List ℕ
  clean : CleanerCall → List ℝ
  prune : PrunerCall → List Vec3 × List Vec3 × List Vec3 × List ℕ

/-- Real indicator of a proposition, modelling numpy boolean arrays used as
multiplicative masks. -/
noncomputable def indR (p : Prop) [Decidable p] : ℝ := if p then 1 else 0

/-- The estimate-stage post-processing of dense.py:
good_score = score > min_correlation_score and
depth = depth * (depth < max_depth) * good_score, elementwise. -/
noncomputable def mask_depth (max_depth min_score : ℝ) (depth score : List ℝ) :
    List ℝ :=
  (depth.zip score).map fun ds =>
    ds.1 * indR (ds.1 < max_depth) * indR (min_score < ds.2)

/-- The method dispatch of compute_depthmap: select among the three
estimator entry points by the configured method name; an unknown method is an
uncaught ValueError, modelled as none. -/
noncomputable def estimator_dispatch (pd : Pydense) (method : String)
    (call : EstimatorCall) : Option (List ℝ × List Vec3 × List ℝ × List ℕ) :=
  if method = "BRUTE_FORCE" then some (pd.compute_brute_force call)
  else if method = "PATCH_MATCH" then some (pd.compute_patch_match call)
  else if method = "PATCH_MATCH_SAMPLE" then
    some (pd.compute_patch_match_sample call)
  else none

/-- compute_depthmap from dense.py (estimate stage runner).  Returns the
updated artifact store together with the number of invocations of the
estimator capability; none models an uncaught exception (unknown method).
The image/mask pixel inputs of the views are out-of-scope imagery determined
by the ids of the shots passed to add_views_to_depth_estimator. -/
noncomputable def compute_depthmap (pd : Pydense) (config : Config)
    (data : DataSet) (neighbors : List Shot) (min_depth max_depth : ℝ)
    (shot : Shot) : Option (DataSet × ℕ) :=
  if (data.raw shot.id).isSome then some (data, 0)
  else
    match estimator_dispatch pd config.depthmap_method
      ⟨min_depth, max_depth, 100, config.depthmap_patchmatch_iterations,
       config.depthmap_patch_size, config.depthmap_min_patch_sd,
       (neighbors.take (config.depthmap_num_matching_views + 1)).map Shot.id⟩ with
    | none => none
    | some (depth, plane, score, nghbr) =>
        some
          (⟨fun i =>
              if i = shot.id then
                some ⟨mask_depth max_depth config.depthmap_min_correlation_score
                        depth score,
                      plane, score, nghbr, (neighbors.drop 1).map Shot.id⟩
              else data.raw i,
            data.clean, data.pruned⟩, 1)

/-- clean_depthmap from dense.py (clean stage runner).  The cleaner sees one
view per neighbor owning a raw depthmap; the saved artifact keeps the raw
plane and score of the target shot unchanged.  Loading the raw depthmap of a
target shot that has none raises, modelled as none. -/
noncomputable def clean_depthmap (pd : Pydense) (config : Config)
    (data : DataSet) (neighbors : List Shot) (shot : Shot) :
    Option (DataSet × ℕ) :=
  if (data.clean shot.id).isSome then some (data, 0)
  else
    let views := neighbors.filterMap fun n =>
      (data.raw n.id).map fun r => (n.id, r.depth)
    let depth := pd.clean
      ⟨config.depthmap_same_depth_threshold,
       config.depthmap_min_consistent_views, views⟩
    match data.raw shot.id with
    | none => none
    | some r =>
        let art : CleanDepthmap := ⟨depth, r.plane, r.score⟩
        some
          (⟨data.raw, fun i => if i = shot.id then some art else data.clean i,
            data.pruned⟩, 1)

/-- prune_depthmap from dense.py (prune stage runner).  The pruner sees one
view per neighbor owning a clean depthmap (color images and labels are
out-of-scope imagery determined by the shot ids). -/
noncomputable def prune_depthmap (pd : Pydense) (config : Config)
    (data : DataSet) (neighbors : List Shot) (shot : Shot) :
    Option (DataSet × ℕ) :=
  if (data.pruned shot.id).isSome then some (data, 0)
  else
    let views := neighbors.filterMap fun n =>
      (data.clean n.id).map fun c => (n.id, c.depth, c.plane)
    let out := pd.prune ⟨config.depthmap_same_depth_threshold, views⟩
    let art : PrunedDepthmap := ⟨out.1, out.2.1, out.2.2.1, out.2.2.2⟩
    some
      (⟨data.raw, data.clean,
        fun i => if i = shot.id then some art else data.pruned i⟩, 1)

/-- aggregate_depthmaps from dense.py: concatenate the per-shot pruned
arrays, per component, in the given shot order. -/
def aggregate_depthmaps (shot_ids : List String)
    (provider : String → PrunedDepthmap) : PrunedDepthmap :=
  ⟨(shot_ids.map fun i => (provider i).points).flatten,
   (shot_ids.map fun i => (provider i).normals).flatten,
   (shot_ids.map fun i => (provider i).colors).flatten,
   (shot_ids.map fun i => (provider i).labels).flatten⟩

/-- merge_depthmaps_from_provider from dense.py.  The boolean records whether
the empty-input warning was logged; the empty case returns four empty arrays
instead of raising. -/
def merge_depthmaps_from_provider (shot_ids : List String)
    (provider : String → PrunedDepthmap) : Bool × PrunedDepthmap :=
  if shot_ids.isEmpty then (true, ⟨[], [], [], []⟩)
  else (false, aggregate_depthmaps shot_ids provider)

/-- The spec-side notion of a qualifying (good) track for a candidate pair of
camera centers: the track has a reconstructed 3D point and the angle at that
point between the rays to the two camera centers lies strictly between pi/60
and pi/6. -/
noncomputable def good_track (recon : Reconstruction) (c1 c2 : Vec3)
    (t : String) : Prop :=
  ∃ p, alookup t recon.points = some p ∧
    Real.pi / 60 < angle_between_points p c1 c2 ∧
    angle_between_points p c1 c2 < Real.pi / 6

instance : IsTotal (Shot × ℕ) fun a b => b.2 ≤ a.2 :=
  ⟨fun a b => Nat.le_total b.2 a.2⟩

instance : IsTrans (Shot × ℕ) fun a b => b.2 ≤ a.2 :=
  ⟨fun _ _ _ h1 h2 => le_trans h2 h1⟩

/-- The identity pose (camera at the world origin). -/
noncomputable def poseId : Pose := ⟨⟨1, 0, 0⟩, ⟨0, 1, 0⟩, ⟨0, 0, 1⟩, ⟨0, 0, 0⟩⟩

/-- A sample shot sitting at the world origin. -/
noncomputable def shotS : Shot := ⟨"s", poseId⟩

/-- Identity rotation with camera center (1, 0, 0). -/
noncomputable def poseC1 : Pose := ⟨⟨1, 0, 0⟩, ⟨0, 1, 0⟩, ⟨0, 0, 1⟩, ⟨-1, 0, 0⟩⟩

/-- Identity rotation with camera center (24, 7, 0). -/
noncomputable def poseC2 : Pose := ⟨⟨1, 0, 0⟩, ⟨0, 1, 0⟩, ⟨0, 0, 1⟩, ⟨-24, -7, 0⟩⟩

/-- A sample target shot with camera center (1, 0, 0). -/
noncomputable def shotT : Shot := ⟨"s", poseC1⟩

/-- A sample candidate shot with camera center (24, 7, 0). -/
noncomputable def shotO : Shot := ⟨"o", poseC2⟩

/-- A sample reconstruction: the candidate shot plus one reconstructed point
at the world origin, which sees the two sample camera centers under the angle
arccos(24/25), strictly inside the (pi/60, pi/6) window. -/
noncomputable def reconC1 : Reconstruction :=
  ⟨[("o", shotO)], [("p", ⟨0, 0, 0⟩)]⟩

/-- Sample pydense capabilities: the patch-match estimator reports one pixel
with depth 0 and score 1, the cleaner returns the depth map [7]. -/
noncomputable def pdSample : Pydense :=
  ⟨fun _ => ([], [], [], []),
   fun _ => ([0], [⟨0, 0, 1⟩], [1], [0]),
   fun _ => ([], [], [], []),
   fun _ => [7],
   fun _ => ([], [], [], [])⟩

/-- A sample configuration: patch-match method, zero minimum correlation
score, configured min depth 2 and unset (zero) max depth. -/
noncomputable def cfgSample : Config := ⟨2, 0, "PATCH_MATCH", 0, 10, 0, 0, 0, 0, 0⟩

/-- The empty artifact store. -/
noncomputable def dataEmpty : DataSet := ⟨fun _ => none, fun _ => none, fun _ => none⟩

/-- A sample raw depthmap artifact for shot s. -/
noncomputable def rawS : RawDepthmap := ⟨[2], [⟨0, 0, 1⟩], [3], [0], []⟩

/-- A sample clean depthmap artifact for shot s. -/
noncomputable def cleanS : CleanDepthmap := ⟨[2], [⟨0, 0, 1⟩], [3]⟩

/-- A sample pruned depthmap artifact for shot s. -/
noncomputable def prunedS : PrunedDepthmap :=
  ⟨[⟨1, 2, 3⟩], [⟨0, 0, 1⟩], [⟨9, 9, 9⟩], [4]⟩

/-- An artifact store holding only the raw depthmap of shot s. -/
noncomputable def dataRawOnly : DataSet :=
  ⟨fun i => if i = "s" then some rawS else none, fun _ => none, fun _ => none⟩

/-- An artifact store holding raw, clean and pruned depthmaps of shot s. -/
noncomputable def dataFull : DataSet :=
  ⟨fun i => if i = "s" then some rawS else none,
   fun i => if i = "s" then some cleanS else none,
   fun i => if i = "s" then some prunedS else none⟩

/-- A sample pruned-depthmap provider: one point for shot a, two points for
every other shot. -/
noncomputable def providerSample : String → PrunedDepthmap := fun i =>
  if i = "a" then ⟨[⟨1, 0, 0⟩], [⟨0, 0, 1⟩], [⟨5, 5, 5⟩], [1]⟩
  else ⟨[⟨2, 0, 0⟩, ⟨3, 0, 0⟩], [⟨0, 0, 1⟩, ⟨0, 0, 1⟩], [⟨6, 6, 6⟩, ⟨7, 7, 7⟩], [2, 3]⟩

/-- C2: for every shot and every neighbor budget N, find_neighboring_images
returns a list headed by the queried shot itself (even when no candidate
survives), of length at most N + 1, whose remaining elements are the
best-scoring candidates sorted by descending score. -/
theorem C2_neighbor_list_shape (shot : Shot)
    (table : List (String × List (String × List String)))
    (recon : Reconstruction) (N : ℕ) :
    (find_neighboring_images shot table recon N).head? = some shot ∧
    (find_neighboring_images shot table recon N).length ≤ N + 1 ∧
    List.Sorted (fun a b : Shot × ℕ => b.2 ≤ a.2)
      (sorted_candidates shot table recon) ∧
    find_neighboring_images shot table recon N =
      shot :: ((sorted_candidates shot table recon).take N).map Prod.fst := by
  refine ⟨rfl, ?_, ?_, rfl⟩
  · simp only [find_neighboring_images, List.length_cons, List.length_map,
      List.length_take]
    omega
  · exact List.sorted_insertionSort _ _

/-- C7: merging zero eligible shots yields a warning and four empty arrays
(no exception); otherwise the merged cloud is the per-component concatenation
of the per-shot arrays in the given order, so two shots with P1 and P2 points
contribute exactly P1 + P2 points, contiguously per shot. -/
theorem C7_merge_concatenation (provider : String → PrunedDepthmap)
    (ids : List String) (a b : String) :
    merge_depthmaps_from_provider [] provider = (true, ⟨[], [], [], []⟩) ∧
    (ids ≠ [] →
      merge_depthmaps_from_provider ids provider =
        (false, aggregate_depthmaps ids provider)) ∧
    (aggregate_depthmaps ids provider).points =
      ids.flatMap (fun i => (provider i).points) ∧
    (merge_depthmaps_from_provider [a, b] provider).2.points =
      (provider a).points ++ (provider b).points ∧
    ((merge_depthmaps_from_provider [a, b] provider).2.points).length =
      (provider a).points.length + (provider b).points.length := by
  refine ⟨rfl, fun h => ?_, ?_, ?_, ?_⟩
  · simp [merge_depthmaps_from_provider, h]
  · simp [aggregate_depthmaps, List.flatMap_def]
  · simp [merge_depthmaps_from_provider, aggregate_depthmaps]
  · simp [merge_depthmaps_from_provider, aggregate_depthmaps]

/-- C7 witness: a concrete two-shot merge concatenates the one-point and
two-point clouds in shot order, and the empty merge warns with empty
output. -/
theorem C7_merge_concatenation_check :
    (merge_depthmaps_from_provider ["a", "b"] providerSample).2.points =
      [⟨1, 0, 0⟩, ⟨2, 0, 0⟩, ⟨3, 0, 0⟩] ∧
    merge_depthmaps_from_provider [] providerSample = (true, ⟨[], [], [], []⟩) := by
  constructor
  · rw [(C7_merge_concatenation providerSample ["a", "b"] "a" "b").2.2.2.1]
    simp [providerSample]
  · exact (C7_merge_concatenation providerSample [] "a" "b").1

/-- C8: each stage runner is idempotent through its artifact guard: when the
output artifact of the stage already exists for the shot, the runner returns
the store unchanged with zero capability invocations. -/
theorem C8_stage_guards (pd : Pydense) (config : Config) (data : DataSet)
    (neighbors : List Shot) (mind maxd : ℝ) (shot : Shot) :
    ((data.raw shot.id).isSome →
      compute_depthmap pd config data neighbors mind maxd shot = some (data, 0)) ∧
    ((data.clean shot.id).isSome →
      clean_depthmap pd config data neighbors shot = some (data, 0)) ∧
    ((data.pruned shot.id).isSome →
      prune_depthmap pd config data neighbors shot = some (data, 0)) := by
  refine ⟨fun h => ?_, fun h => ?_, fun h => ?_⟩
  · simp [compute_depthmap, h]
  · simp [clean_depthmap, h]
  · simp [prune_depthmap, h]

/-- C8 witness: on a store already holding all three artifacts of shot s,
each runner is a no-op with zero capability calls. -/
theorem C8_stage_guards_check :
    compute_depthmap pdSample cfgSample dataFull [shotS] 0 1 shotS =
      some (dataFull, 0) ∧
    clean_depthmap pdSample cfgSample dataFull [shotS] shotS =
      some (dataFull, 0) ∧
    prune_depthmap pdSample cfgSample dataFull [shotS] shotS =
      some (dataFull, 0) := by
  have h := C8_stage_guards pdSample cfgSample dataFull [shotS] 0 1 shotS
  exact ⟨h.1 (by simp [dataFull, shotS]), h.2.1 (by simp [dataFull, shotS]),
    h.2.2 (by simp [dataFull, shotS])⟩

/-- C9: the clean stage saves an artifact whose plane and score components
are exactly those loaded from the raw depthmap of the shot, unchanged; only
the depth component is the cleaner's output. -/
theorem C9_clean_carries_plane_score (pd : Pydense) (config : Config)
    (data : DataSet) (neighbors : List Shot) (shot : Shot) (r : RawDepthmap)
    (h1 : data.clean shot.id = none) (h2 : data.raw shot.id = some r) :
    ∃ d2, clean_depthmap pd config data neighbors shot = some (d2, 1) ∧
      d2.clean shot.id =
        some ⟨pd.clean
                ⟨config.depthmap_same_depth_threshold,
                 config.depthmap_min_consistent_views,
                 neighbors.filterMap fun n =>
                   (data.raw n.id).map fun q => (n.id, q.depth)⟩,
              r.plane, r.score⟩ := by
  have hrun : clean_depthmap pd config data neighbors shot =
      some
        (⟨data.raw,
          fun i =>
            if i = shot.id then
              some ⟨pd.clean
                      ⟨config.depthmap_same_depth_threshold,
                       config.depthmap_min_consistent_views,
                       neighbors.filterMap fun n =>
                         (data.raw n.id).map fun q => (n.id, q.depth)⟩,
                    r.plane, r.score⟩
            else data.clean i,
          data.pruned⟩, 1) := by
    unfold clean_depthmap
    rw [h1, h2]
    simp
  exact ⟨_, hrun, by simp⟩

/-- C9 witness: cleaning shot s on a store holding only its raw artifact
produces a clean artifact carrying the raw plane and score unchanged. -/
theorem C9_clean_carries_plane_score_check :
    ∃ d2 c, clean_depthmap pdSample cfgSample dataRawOnly [shotS] shotS =
        some (d2, 1) ∧
      d2.clean "s" = some c ∧ c.plane = rawS.plane ∧ c.score = rawS.score := by
  obtain ⟨d2, hrun, hart⟩ :=
    C9_clean_carries_plane_score pdSample cfgSample dataRawOnly [shotS] shotS
      rawS (by simp [dataRawOnly]) (by simp [dataRawOnly, shotS])
  exact ⟨d2, _, hrun, hart, rfl, rfl⟩

/-- C6: when no observed track of the shot has a reconstructed 3D point, the
depth list is empty and compute_depth_range is an error (np.percentile raises
on an empty sequence), never a normal return value. -/
theorem C6_depth_range_empty_is_error (g : TracksManager)
    (recon : Reconstruction) (shot : Shot) (config : Config)
    (h : ∀ track ∈ get_shot_observations g shot.id,
      alookup track recon.points = none) :
    compute_depth_range g recon shot config = none := by
  have hd : shot_depths g recon shot = [] := by
    simp only [shot_depths, List.filterMap_eq_nil_iff]
    intro t ht
    rw [h t ht]
    rfl
  simp [compute_depth_range, hd]

/-- C6 witness: a shot observing one track with no reconstructed point makes
compute_depth_range error out. -/
theorem C6_depth_range_empty_is_error_check :
    compute_depth_range [("s", ["t"])] ⟨[], []⟩ shotS cfgSample = none :=
  C6_depth_range_empty_is_error [("s", ["t"])] ⟨[], []⟩ shotS cfgSample
    (fun _ _ => rfl)

/-- C3: with at least one reconstructed observed track, compute_depth_range
returns 0.9 times the 10th percentile and 1.1 times the 90th percentile of
the camera-relative depths, each bound independently replaced by the
corresponding configured bound when that bound is non-zero. -/
theorem C3_depth_range_formula (g : TracksManager) (recon : Reconstruction)
    (shot : Shot) (config : Config) (h : shot_depths g recon shot ≠ []) :
    compute_depth_range g recon shot config =
      some
        (if config.depthmap_min_depth = 0
          then percentile (shot_depths g recon shot) 10 * 0.9
          else config.depthmap_min_depth,
         if config.depthmap_max_depth = 0
          then percentile (shot_depths g recon shot) 90 * 1.1
          else config.depthmap_max_depth) := by
  simp [compute_depth_range, h]

/-- C3 witness: one reconstructed point at camera depth 5; the configured min
depth 2 replaces the computed min while the max stays computed,
1.1 times the 90th percentile of [5]. -/
theorem C3_depth_range_formula_check :
    compute_depth_range [("s", ["t"])] ⟨[], [("t", ⟨0, 0, 5⟩)]⟩ shotS cfgSample =
      some (2, 5.5) := by
  have hdep : shot_depths [("s", ["t"])] ⟨[], [("t", ⟨0, 0, 5⟩)]⟩ shotS = [5] := by
    simp [shot_depths, get_shot_observations, alookup, shotS, poseId,
      Pose.transform, dotv]
  rw [C3_depth_range_formula _ _ _ _ (by rw [hdep]; simp)]
  rw [hdep]
  norm_num [percentile, cfgSample]

/-- Pointwise description of the estimate-stage mask: a pixel whose raw depth
reaches the max depth or whose score fails to exceed the min correlation
score is zeroed; any other pixel keeps its raw depth value. -/
theorem mask_depth_getD (maxd mins : ℝ) (depth score : List ℝ) (i : ℕ)
    (h1 : i < depth.length) (h2 : i < score.length) :
    (mask_depth maxd mins depth score).getD i 0 =
      if maxd ≤ depth.getD i 0 ∨ score.getD i 0 ≤ mins then 0
      else depth.getD i 0 := by
  induction depth generalizing score i with
  | nil => simp at h1
  | cons d ds ih =>
    cases score with
    | nil => simp at h2
    | cons s ss =>
      cases i with
      | zero =>
        simp only [mask_depth, List.zip_cons_cons, List.map_cons,
          List.getD_cons_zero]
        by_cases hd : d < maxd
        · by_cases hs : mins < s
          · rw [if_neg (by push_neg; exact ⟨hd, hs⟩)]
            simp [indR, hd, hs]
          · rw [if_pos (Or.inr (not_lt.mp hs))]
            simp [indR, hs]
        · rw [if_pos (Or.inl (not_lt.mp hd))]
          simp [indR, hd]
      | succ j =>
        simp only [mask_depth, List.zip_cons_cons, List.map_cons,
          List.getD_cons_succ]
        exact ih ss j (by simpa using h1) (by simpa using h2)

/-- C4 (amended): after the estimate stage, the saved depth of a pixel whose
raw depth reaches the configured max depth or whose score fails to exceed the
configured minimum correlation score is exactly zero, and every other pixel's
saved depth equals the unmasked raw depth value (which is non-zero exactly
when the raw value is non-zero). -/
theorem C4_estimate_masking (pd : Pydense) (config : Config) (data : DataSet)
    (neighbors : List Shot) (mind maxd : ℝ) (shot : Shot)
    (depth0 : List ℝ) (plane0 : List Vec3) (score0 : List ℝ) (nghbr0 : List ℕ)
    (hraw : data.raw shot.id = none)
    (hm : config.depthmap_method = "PATCH_MATCH")
    (hout : pd.compute_patch_match
        ⟨mind, maxd, 100, config.depthmap_patchmatch_iterations,
         config.depthmap_patch_size, config.depthmap_min_patch_sd,
         (neighbors.take (config.depthmap_num_matching_views + 1)).map Shot.id⟩ =
      (depth0, plane0, score0, nghbr0)) :
    ∃ d2 art,
      compute_depthmap pd config data neighbors mind maxd shot = some (d2, 1) ∧
      d2.raw shot.id = some art ∧
      art.depth =
        mask_depth maxd config.depthmap_min_correlation_score depth0 score0 ∧
      ∀ i, i < depth0.length → i < score0.length →
        art.depth.getD i 0 =
          if maxd ≤ depth0.getD i 0 ∨
              score0.getD i 0 ≤ config.depthmap_min_correlation_score then 0
          else depth0.getD i 0 := by
  have hrun : compute_depthmap pd config data neighbors mind maxd shot =
      some
        (⟨fun i =>
            if i = shot.id then
              some ⟨mask_depth maxd config.depthmap_min_correlation_score
                      depth0 score0,
                    plane0, score0, nghbr0, (neighbors.drop 1).map Shot.id⟩
            else data.raw i,
          data.clean, data.pruned⟩, 1) := by
    unfold compute_depthmap estimator_dispatch
    rw [hraw, hm, hout]
    simp
  refine ⟨_, ⟨mask_depth maxd config.depthmap_min_correlation_score depth0
      score0, plane0, score0, nghbr0, (neighbors.drop 1).map Shot.id⟩,
    hrun, ?_, rfl, ?_⟩
  · simp
  · intro i hi1 hi2
    exact mask_depth_getD maxd config.depthmap_min_correlation_score
      depth0 score0 i hi1 hi2

/-- C4 counterexample to the claim as stated: with max depth 1 and minimum
correlation score 0, the sample estimator reports pixel 0 with raw depth 0
and score 1, so the pixel is not masked (its depth is below the max and its
score is above the threshold) and the claim requires a non-zero saved depth,
yet the saved depth map is [0]: the saved value equals the raw value but is
not non-zero. -/
theorem C4_counterexample :
    ∃ d2 art,
      compute_depthmap pdSample cfgSample dataEmpty [shotS] 0 1 shotS =
        some (d2, 1) ∧
      d2.raw "s" = some art ∧
      ¬((1:ℝ) ≤ (0:ℝ) ∨ (1:ℝ) ≤ (0:ℝ)) ∧
      art.depth = [0] := by
  obtain ⟨d2, art, hrun, hart, hdepth, hpt⟩ :=
    C4_estimate_masking pdSample cfgSample dataEmpty [shotS] 0 1 shotS
      [0] [⟨0, 0, 1⟩] [1] [0] rfl rfl rfl
  refine ⟨d2, art, hrun, hart, by norm_num, ?_⟩
  rw [hdepth]
  norm_num [mask_depth, indR, cfgSample]

/-- C4 witness for the amended masking theorem at a concrete run: the saved
pixel 0 equals the raw pixel 0 (here zero) since it is unmasked. -/
theorem C4_estimate_masking_check :
    ∃ d2 art,
      compute_depthmap pdSample cfgSample dataEmpty [shotS] 0 1 shotS =
        some (d2, 1) ∧
      d2.raw "s" = some art ∧
      art.depth.getD 0 0 = 0 := by
  obtain ⟨d2, art, hrun, hart, hdepth, hpt⟩ :=
    C4_estimate_masking pdSample cfgSample dataEmpty [shotS] 0 1 shotS
      [0] [⟨0, 0, 1⟩] [1] [0] rfl rfl rfl
  refine ⟨d2, art, hrun, hart, ?_⟩
  rw [hpt 0 (by simp) (by simp)]
  norm_num [cfgSample]

/-- The sample geometry evaluates to the angle arccos(24/25): the rays from
the origin point to the two camera centers (1,0,0) and (24,7,0) have dot
product 24 and norms 1 and 25. -/
theorem sample_angle_eq :
    angle_between_points ⟨0, 0, 0⟩ ⟨1, 0, 0⟩ ⟨24, 7, 0⟩ =
      Real.arccos (24 / 25) := by
  have h625 : Real.sqrt 625 = 25 := by
    rw [show (625 : ℝ) = 25 ^ 2 by norm_num]
    exact Real.sqrt_sq (by norm_num)
  unfold angle_between_points subv dotv
  norm_num [h625]

/-- arccos(24/25) lies strictly between pi/60 and pi/6. -/
theorem sample_angle_in_window :
    theta_min < angle_between_points ⟨0, 0, 0⟩ ⟨1, 0, 0⟩ ⟨24, 7, 0⟩ ∧
    angle_between_points ⟨0, 0, 0⟩ ⟨1, 0, 0⟩ ⟨24, 7, 0⟩ < theta_max := by
  rw [sample_angle_eq]
  unfold theta_min theta_max
  constructor
  · have hcos : (24 : ℝ) / 25 < Real.cos (Real.pi / 60) := by
      have hb : 1 - (Real.pi / 60) ^ 2 / 2 ≤ Real.cos (Real.pi / 60) :=
        Real.one_sub_sq_div_two_le_cos
      nlinarith [Real.pi_lt_d2, Real.pi_gt_three]
    have hmem1 : (24 : ℝ) / 25 ∈ Set.Icc (-1 : ℝ) 1 := by norm_num
    have hmem2 : Real.cos (Real.pi / 60) ∈ Set.Icc (-1 : ℝ) 1 :=
      ⟨Real.neg_one_le_cos _, Real.cos_le_one _⟩
    have h := Real.strictAntiOn_arccos hmem1 hmem2 hcos
    rwa [Real.arccos_cos (by positivity) (by linarith [Real.pi_pos])] at h
  · have hcos : Real.cos (Real.pi / 6) < 24 / 25 := by
      rw [Real.cos_pi_div_six]
      have h3 : Real.sqrt 3 < 48 / 25 := by
        nlinarith [Real.sq_sqrt (show (0 : ℝ) ≤ 3 by norm_num),
          Real.sqrt_nonneg 3]
      linarith
    have hmem1 : Real.cos (Real.pi / 6) ∈ Set.Icc (-1 : ℝ) 1 :=
      ⟨Real.neg_one_le_cos _, Real.cos_le_one _⟩
    have hmem2 : (24 : ℝ) / 25 ∈ Set.Icc (-1 : ℝ) 1 := by norm_num
    have h := Real.strictAntiOn_arccos hmem1 hmem2 hcos
    rwa [Real.arccos_cos (by positivity) (by linarith [Real.pi_pos])] at h

/-- Scoring n copies of one qualifying track counts n. -/
theorem track_score_replicate (recon : Reconstruction) (c1 c2 : Vec3)
    (t : String) (p : Vec3) (hp : alookup t recon.points = some p)
    (hg : theta_min < angle_between_points p c1 c2 ∧
      angle_between_points p c1 c2 < theta_max) :
    ∀ n, track_score recon c1 c2 (List.replicate n t) = n := by
  intro n
  induction n with
  | zero => rfl
  | succ m ih =>
    rw [List.replicate_succ]
    simp only [track_score, hp]
    rw [if_pos hg, ih]
    omega

/-- The candidate loop distributes over list append. -/
theorem candidate_list_append (shot : Shot) (recon : Reconstruction) :
    ∀ l1 l2, candidate_list shot recon (l1 ++ l2) =
      candidate_list shot recon l1 ++ candidate_list shot recon l2 := by
  intro l1 l2
  induction l1 with
  | nil => rfl
  | cons e rest ih =>
    obtain ⟨oid, tr⟩ := e
    simp only [List.cons_append, candidate_list]
    cases alookup oid recon.shots with
    | none => exact ih
    | some o =>
      by_cases hs :
        track_score recon shot.pose.get_origin o.pose.get_origin tr > 20
      · simp [hs, ih]
      · simp [hs, ih]

/-- Every surviving candidate's stored score exceeds 20. -/
theorem candidate_list_score_gt (shot : Shot) (recon : Reconstruction) :
    ∀ (row : List (String × List String)) (o : Shot) (s : ℕ),
      (o, s) ∈ candidate_list shot recon row → 20 < s := by
  intro row
  induction row with
  | nil => intro o s h; simp [candidate_list] at h
  | cons e rest ih =>
    obtain ⟨oid, tr⟩ := e
    intro o s h
    simp only [candidate_list] at h
    cases hl : alookup oid recon.shots with
    | none => rw [hl] at h; exact ih o s h
    | some ob =>
      rw [hl] at h
      simp only [] at h
      by_cases hs :
        track_score recon shot.pose.get_origin ob.pose.get_origin tr > 20
      · rw [if_pos hs] at h
        rcases List.mem_cons.mp h with h1 | h2
        · simp only [Prod.mk.injEq] at h1
          obtain ⟨rfl, rfl⟩ := h1
          exact hs
        · exact ih o s h2
      · rw [if_neg hs] at h
        exact ih o s h

/-- A row entry whose candidate is reconstructed and whose score exceeds 20
produces a surviving candidate, wherever the entry sits in the row. -/
theorem candidate_list_mem_of_score (shot : Shot) (recon : Reconstruction)
    (pre post : List (String × List String)) (oid : String)
    (tr : List String) (o : Shot) (hl : alookup oid recon.shots = some o)
    (hs : 20 < track_score recon shot.pose.get_origin o.pose.get_origin tr) :
    (o, track_score recon shot.pose.get_origin o.pose.get_origin tr) ∈
      candidate_list shot recon (pre ++ (oid, tr) :: post) := by
  rw [candidate_list_append]
  refine List.mem_append_right _ ?_
  simp only [candidate_list, hl]
  rw [if_pos hs]
  exact List.mem_cons_self _ _

/-- Every surviving candidate shot is a value of the reconstruction's shot
mapping. -/
theorem candidate_list_mem_lookup (shot : Shot) (recon : Reconstruction) :
    ∀ (row : List (String × List String)) (x : Shot × ℕ),
      x ∈ candidate_list shot recon row →
      ∃ k, alookup k recon.shots = some x.1 := by
  intro row
  induction row with
  | nil => intro x h; simp [candidate_list] at h
  | cons e rest ih =>
    obtain ⟨oid, tr⟩ := e
    intro x h
    simp only [candidate_list] at h
    cases hl : alookup oid recon.shots with
    | none => rw [hl] at h; exact ih x h
    | some ob =>
      rw [hl] at h
      simp only [] at h
      by_cases hs :
        track_score recon shot.pose.get_origin ob.pose.get_origin tr > 20
      · rw [if_pos hs] at h
        rcases List.mem_cons.mp h with h1 | h2
        · exact ⟨oid, by rw [hl, h1]⟩
        · exact ih x h2
      · rw [if_neg hs] at h
        exact ih x h

open Classical in
/-- The source's score loop counts exactly the tracks that are good in the
spec's sense: reconstructed, with the angle at the point between the rays to
the two camera centers strictly between pi/60 and pi/6. -/
theorem track_score_eq_good_count (recon : Reconstruction) (c1 c2 : Vec3) :
    ∀ tr : List String,
      track_score recon c1 c2 tr =
        (tr.filter fun t => good_track recon c1 c2 t).length := by
  intro tr
  induction tr with
  | nil => rfl
  | cons t rest ih =>
    rw [List.filter_cons]
    cases hp : alookup t recon.points with
    | none =>
      have hng : ¬good_track recon c1 c2 t := by
        rintro ⟨p, hp2, -⟩
        rw [hp] at hp2
        exact Option.noConfusion hp2
      simp only [track_score, hp, ih]
      rw [if_neg (by simpa using hng)]
      omega
    | some p =>
      by_cases hg : theta_min < angle_between_points p c1 c2 ∧
          angle_between_points p c1 c2 < theta_max
      · have hgt : good_track recon c1 c2 t := ⟨p, hp, hg.1, hg.2⟩
        simp only [track_score, hp, if_pos hg, ih]
        rw [if_pos (by simpa using hgt)]
        simp [Nat.add_comm]
      · have hng : ¬good_track recon c1 c2 t := by
          rintro ⟨p2, hp2, hlow, hhigh⟩
          rw [hp] at hp2
          cases hp2
          exact hg ⟨hlow, hhigh⟩
        simp only [track_score, hp, if_neg hg, ih]
        rw [if_neg (by simpa using hng)]
        omega

open Classical in
/-- C1: a candidate's score counts exactly the shared tracks whose
reconstructed 3D point sees the two camera centers under an angle strictly
between pi/60 and pi/6; every kept candidate has score strictly above 20, a
row entry scoring above 20 is kept, and for a synthetic single-candidate pair
a score of exactly 21 puts the candidate in the result while a score of
exactly 20 leaves only the target shot. -/
theorem C1_neighbor_scoring (recon : Reconstruction) (shot other : Shot)
    (tracks : List String) (N : ℕ) (hN : 1 ≤ N)
    (hother : alookup other.id recon.shots = some other) :
    (∀ (c1 c2 : Vec3) (tr : List String),
      track_score recon c1 c2 tr =
        (tr.filter fun t => good_track recon c1 c2 t).length) ∧
    (∀ (row : List (String × List String)) (o : Shot) (s : ℕ),
      (o, s) ∈ candidate_list shot recon row → 20 < s) ∧
    (∀ (pre post : List (String × List String)) (oid : String)
        (tr : List String) (o : Shot),
      alookup oid recon.shots = some o →
      20 < track_score recon shot.pose.get_origin o.pose.get_origin tr →
      (o, track_score recon shot.pose.get_origin o.pose.get_origin tr) ∈
        candidate_list shot recon (pre ++ (oid, tr) :: post)) ∧
    (track_score recon shot.pose.get_origin other.pose.get_origin tracks = 21 →
      other ∈
        find_neighboring_images shot [(shot.id, [(other.id, tracks)])] recon N) ∧
    (track_score recon shot.pose.get_origin other.pose.get_origin tracks = 20 →
      find_neighboring_images shot [(shot.id, [(other.id, tracks)])] recon N =
        [shot]) := by
  refine ⟨track_score_eq_good_count recon, candidate_list_score_gt shot recon,
    fun pre post oid tr o h1 h2 =>
      candidate_list_mem_of_score shot recon pre post oid tr o h1 h2, ?_, ?_⟩
  · intro h21
    have hcl : candidate_list shot recon [(other.id, tracks)] = [(other, 21)] := by
      simp only [candidate_list, hother, h21]
      rw [if_pos (by norm_num)]
    unfold find_neighboring_images sorted_candidates
    have hrow : (alookup shot.id [(shot.id, [(other.id, tracks)])]).getD [] =
        [(other.id, tracks)] := by
      simp [alookup]
    rw [hrow, hcl]
    obtain ⟨m, rfl⟩ : ∃ m, N = m + 1 := ⟨N - 1, by omega⟩
    simp [sort_by_score_desc]
  · intro h20
    have hcl : candidate_list shot recon [(other.id, tracks)] = [] := by
      simp only [candidate_list, hother, h20]
      rw [if_neg (by norm_num)]
    unfold find_neighboring_images sorted_candidates
    have hrow : (alookup shot.id [(shot.id, [(other.id, tracks)])]).getD [] =
        [(other.id, tracks)] := by
      simp [alookup]
    rw [hrow, hcl]
    simp [sort_by_score_desc]

/-- C1 witness: with the sample geometry (camera centers (1,0,0) and
(24,7,0), point at the origin, angle arccos(24/25) inside the window), the
candidate sharing 21 qualifying tracks is returned and the candidate sharing
20 is not. -/
theorem C1_neighbor_scoring_check :
    shotO ∈ find_neighboring_images shotT
        [("s", [("o", List.replicate 21 "p")])] reconC1 10 ∧
    find_neighboring_images shotT
        [("s", [("o", List.replicate 20 "p")])] reconC1 10 = [shotT] := by
  have hlook : alookup "p" reconC1.points = some ⟨0, 0, 0⟩ := by
    simp [reconC1, alookup]
  have hc1 : shotT.pose.get_origin = ⟨1, 0, 0⟩ := by
    simp [shotT, poseC1, Pose.get_origin]
  have hc2 : shotO.pose.get_origin = ⟨24, 7, 0⟩ := by
    simp [shotO, poseC2, Pose.get_origin]
  have hother : alookup shotO.id reconC1.shots = some shotO := by
    simp [reconC1, shotO, alookup]
  constructor
  · have h21 : track_score reconC1 shotT.pose.get_origin shotO.pose.get_origin
        (List.replicate 21 "p") = 21 := by
      rw [hc1, hc2]
      exact track_score_replicate reconC1 _ _ "p" ⟨0, 0, 0⟩ hlook
        sample_angle_in_window 21
    exact (C1_neighbor_scoring reconC1 shotT shotO (List.replicate 21 "p") 10
      (by norm_num) hother).2.2.2.1 h21
  · have h20 : track_score reconC1 shotT.pose.get_origin shotO.pose.get_origin
        (List.replicate 20 "p") = 20 := by
      rw [hc1, hc2]
      exact track_score_replicate reconC1 _ _ "p" ⟨0, 0, 0⟩ hlook
        sample_angle_in_window 20
    exact (C1_neighbor_scoring reconC1 shotT shotO (List.replicate 20 "p") 10
      (by norm_num) hother).2.2.2.2 h20

/-- C10: a candidate id present in the common-track row of the target but
absent from the reconstruction's shot mapping is silently skipped: removing
its row entry leaves the result unchanged, and no returned neighbor carries
that id (for a reconstruction whose shot mapping is keyed by shot id). -/
theorem C10_skip_unreconstructed (shot : Shot) (recon : Reconstruction)
    (t1 t2 : List (String × List (String × List String)))
    (oid : String) (tracks : List String)
    (pre post : List (String × List String)) (N : ℕ)
    (habs : alookup oid recon.shots = none)
    (h1 : alookup shot.id t1 = some (pre ++ (oid, tracks) :: post))
    (h2 : alookup shot.id t2 = some (pre ++ post))
    (hwf : ∀ k s, alookup k recon.shots = some s → s.id = k) :
    find_neighboring_images shot t1 recon N =
      find_neighboring_images shot t2 recon N ∧
    ∀ s ∈ (find_neighboring_images shot t1 recon N).tail, s.id ≠ oid := by
  have hmid : candidate_list shot recon ((oid, tracks) :: post) =
      candidate_list shot recon post := by
    simp only [candidate_list, habs]
  have hcl : candidate_list shot recon (pre ++ (oid, tracks) :: post) =
      candidate_list shot recon (pre ++ post) := by
    rw [candidate_list_append, hmid, ← candidate_list_append]
  constructor
  · unfold find_neighboring_images sorted_candidates
    rw [h1, h2]
    simp only [Option.getD_some]
    rw [hcl]
  · intro s hs
    unfold find_neighboring_images sorted_candidates at hs
    rw [h1] at hs
    simp only [Option.getD_some, List.tail_cons] at hs
    obtain ⟨x, hx, rfl⟩ := List.mem_map.mp hs
    have hx1 : x ∈ sort_by_score_desc
        (candidate_list shot recon (pre ++ (oid, tracks) :: post)) :=
      List.take_subset _ _ hx
    have hx2 : x ∈ candidate_list shot recon (pre ++ (oid, tracks) :: post) :=
      (List.perm_insertionSort (fun a b : Shot × ℕ => b.2 ≤ a.2)
        (candidate_list shot recon (pre ++ (oid, tracks) :: post))).subset
        (by simpa [sort_by_score_desc] using hx1)
    obtain ⟨k, hk⟩ := candidate_list_mem_lookup shot recon _ x hx2
    intro hid
    have hko : k = oid := by rw [← hwf k x.1 hk, hid]
    rw [hko, habs] at hk
    exact Option.noConfusion hk

/-- C10 witness: the entry for id x, unknown to the reconstruction, changes
nothing, and x does not appear among the returned neighbors. -/
theorem C10_skip_unreconstructed_check :
    find_neighboring_images shotT
        [("s", [("x", ["p"]), ("o", List.replicate 21 "p")])] reconC1 5 =
      find_neighboring_images shotT
        [("s", [("o", List.replicate 21 "p")])] reconC1 5 ∧
    "x" ∉ (find_neighboring_images shotT
        [("s", [("x", ["p"]), ("o", List.replicate 21 "p")])] reconC1 5).tail.map
          Shot.id := by
  have habs : alookup "x" reconC1.shots = none := by
    simp [reconC1, alookup]
  have h1 : alookup shotT.id
      [("s", [("x", ["p"]), ("o", List.replicate 21 "p")])] =
      some ([] ++ ("x", ["p"]) :: [("o", List.replicate 21 "p")]) := by
    simp [shotT, alookup]
  have h2 : alookup shotT.id [("s", [("o", List.replicate 21 "p")])] =
      some ([] ++ [("o", List.replicate 21 "p")]) := by
    simp [shotT, alookup]
  have hwf : ∀ k s, alookup k reconC1.shots = some s → s.id = k := by
    intro k s h
    simp only [reconC1, alookup] at h
    split at h
    next heq =>
      injection h with h3
      subst h3
      simpa [shotO] using heq
    next => exact Option.noConfusion h
  have h := C10_skip_unreconstructed shotT reconC1
    [("s", [("x", ["p"]), ("o", List.replicate 21 "p")])]
    [("s", [("o", List.replicate 21 "p")])]
    "x" ["p"] [] [("o", List.replicate 21 "p")] 5 habs h1 h2 hwf
  refine ⟨h.1, ?_⟩
  intro hmem
  obtain ⟨s, hs, hid⟩ := List.mem_map.mp hmem
  exact h.2 s hs hid

/-- Updating at a key rewrites the first entry with that key, as seen by
lookup. -/
theorem alookup_updAt_self (k : String) (f : β → β) :
    ∀ l : List (String × β), alookup k (updAt k f l) = (alookup k l).map f := by
  intro l
  induction l with
  | nil => rfl
  | cons e rest ih =>
    obtain ⟨k2, v⟩ := e
    by_cases hk : k2 = k
    · simp [updAt, alookup, hk]
    · simp [updAt, alookup, hk, ih]

/-- Updating at one key leaves lookups of other keys unchanged. -/
theorem alookup_updAt_other (k k2 : String) (f : β → β) (hne : k2 ≠ k) :
    ∀ l : List (String × β), alookup k2 (updAt k f l) = alookup k2 l := by
  intro l
  induction l with
  | nil => rfl
  | cons e rest ih =>
    obtain ⟨k3, v⟩ := e
    by_cases hk : k3 = k
    · subst hk
      simp [updAt, alookup, Ne.symm hne]
    · simp only [updAt, if_neg hk, alookup]
      by_cases hk2 : k3 = k2
      · simp [hk2]
      · simp [hk2, ih]

/-- Inserting a key makes it found with the inserted value. -/
theorem alookup_insertKV_self (k : String) (v : β) :
    ∀ l : List (String × β), alookup k (insertKV k v l) = some v := by
  intro l
  induction l with
  | nil => simp [insertKV, alookup]
  | cons e rest ih =>
    obtain ⟨k2, v2⟩ := e
    by_cases hk : k2 = k
    · simp [insertKV, alookup, hk]
    · simp [insertKV, alookup, hk, ih]

/-- Inserting at one key leaves lookups of other keys unchanged. -/
theorem alookup_insertKV_other (k k2 : String) (v : β) (hne : k2 ≠ k) :
    ∀ l : List (String × β), alookup k2 (insertKV k v l) = alookup k2 l := by
  intro l
  induction l with
  | nil => simp [insertKV, alookup, Ne.symm hne]
  | cons e rest ih =>
    obtain ⟨k3, v3⟩ := e
    by_cases hk : k3 = k
    · subst hk
      simp [insertKV, alookup, Ne.symm hne]
    · simp only [insertKV, if_neg hk, alookup]
      by_cases hk2 : k3 = k2
      · simp [hk2]
      · simp [hk2, ih]

/-- Updating a value never changes which keys are present. -/
theorem alookup_updAt_isSome (k s : String) (f : β → β)
    (l : List (String × β)) :
    (alookup s (updAt k f l)).isSome = (alookup s l).isSome := by
  by_cases hs : s = k
  · subst hs
    rw [alookup_updAt_self]
    cases alookup s l <;> rfl
  · rw [alookup_updAt_other k s f hs]

/-- One common-track recording step never changes which outer keys are
present. -/
theorem ct_step_isSome (res : List (String × List (String × List String)))
    (e : (String × String) × List String) (s : String) :
    (alookup s (ct_step res e)).isSome = (alookup s res).isSome := by
  unfold ct_step
  rw [alookup_updAt_isSome, alookup_updAt_isSome]

/-- Recording one co-observing pair writes its track list at both orientations
of the pair and leaves every other cell of the table unchanged (provided both
pair members are existing outer keys). -/
theorem lookup2_ct_step (res : List (String × List (String × List String)))
    (e : (String × String) × List String) (a b : String)
    (h1 : (alookup e.1.1 res).isSome = true)
    (h2 : (alookup e.1.2 res).isSome = true) :
    lookup2 (ct_step res e) a b =
      if (a = e.1.1 ∧ b = e.1.2) ∨ (a = e.1.2 ∧ b = e.1.1) then some e.2
      else lookup2 res a b := by
  obtain ⟨⟨i1, i2⟩, v⟩ := e
  simp only at h1 h2 ⊢
  obtain ⟨d1, hd1⟩ := Option.isSome_iff_exists.mp h1
  obtain ⟨d2, hd2⟩ := Option.isSome_iff_exists.mp h2
  unfold ct_step lookup2
  simp only
  by_cases he : i1 = i2
  · subst he
    by_cases ha : a = i1
    · subst ha
      rw [alookup_updAt_self, alookup_updAt_self, hd1]
      by_cases hb : b = a
      · subst hb
        rw [if_pos (Or.inl ⟨rfl, rfl⟩)]
        simp [alookup_insertKV_self]
      · rw [if_neg (by simp [hb])]
        simp [alookup_insertKV_other a b v hb, hd1]
    · rw [alookup_updAt_other i1 a _ ha, alookup_updAt_other i1 a _ ha]
      rw [if_neg (by simp [ha])]
  · by_cases ha1 : a = i1
    · subst ha1
      rw [alookup_updAt_other i2 a _ he]
      rw [alookup_updAt_self, hd1]
      by_cases hb : b = i2
      · subst hb
        rw [if_pos (Or.inl ⟨rfl, rfl⟩)]
        simp [alookup_insertKV_self]
      · rw [if_neg (by simp [hb, he])]
        simp [alookup_insertKV_other i2 b v hb, hd1]
    · by_cases ha2 : a = i2
      · subst ha2
        rw [alookup_updAt_self, alookup_updAt_other i1 a _ ha1, hd2]
        by_cases hb : b = i1
        · subst hb
          rw [if_pos (Or.inr ⟨rfl, rfl⟩)]
          simp [alookup_insertKV_self]
        · rw [if_neg (by simp [hb, ha1])]
          simp [alookup_insertKV_other i1 b v hb, hd2]
      · rw [alookup_updAt_other i2 a _ ha2, alookup_updAt_other i1 a _ ha1]
        rw [if_neg (by simp [ha1, ha2])]

/-- Folding the pair recording steps preserves symmetry of the table. -/
theorem ct_fold_sym :
    ∀ (ps : List ((String × String) × List String))
      (res : List (String × List (String × List String))),
      (∀ e ∈ ps, (alookup e.1.1 res).isSome = true ∧
        (alookup e.1.2 res).isSome = true) →
      (∀ a b, lookup2 res a b = lookup2 res b a) →
      ∀ a b, lookup2 (ps.foldl ct_step res) a b =
        lookup2 (ps.foldl ct_step res) b a := by
  intro ps
  induction ps with
  | nil => intro res h hs a b; exact hs a b
  | cons e rest ih =>
    intro res h hs a b
    simp only [List.foldl_cons]
    apply ih
    · intro e2 he2
      rw [ct_step_isSome, ct_step_isSome]
      exact h e2 (List.mem_cons_of_mem e he2)
    · intro a2 b2
      have hh := h e (List.mem_cons_self e rest)
      rw [lookup2_ct_step res e a2 b2 hh.1 hh.2,
        lookup2_ct_step res e b2 a2 hh.1 hh.2]
      by_cases hc : (a2 = e.1.1 ∧ b2 = e.1.2) ∨ (a2 = e.1.2 ∧ b2 = e.1.1)
      · rw [if_pos hc, if_pos (by tauto)]
      · rw [if_neg hc, if_neg (by tauto)]
        exact hs a2 b2

/-- Once a cell of the table is set, further pair recording keeps it set. -/
theorem ct_fold_isSome_mono :
    ∀ (ps : List ((String × String) × List String))
      (res : List (String × List (String × List String))) (a b : String),
      (∀ e ∈ ps, (alookup e.1.1 res).isSome = true ∧
        (alookup e.1.2 res).isSome = true) →
      (lookup2 res a b).isSome = true →
      (lookup2 (ps.foldl ct_step res) a b).isSome = true := by
  intro ps
  induction ps with
  | nil => intro res a b h hs; exact hs
  | cons e rest ih =>
    intro res a b h hs
    simp only [List.foldl_cons]
    apply ih
    · intro e2 he2
      rw [ct_step_isSome, ct_step_isSome]
      exact h e2 (List.mem_cons_of_mem e he2)
    · have hh := h e (List.mem_cons_self e rest)
      rw [lookup2_ct_step res e a b hh.1 hh.2]
      by_cases hc : (a = e.1.1 ∧ b = e.1.2) ∨ (a = e.1.2 ∧ b = e.1.1)
      · rw [if_pos hc]; rfl
      · rw [if_neg hc]; exact hs

/-- If some recorded pair joins a and b (in either orientation), the final
table has the cell (a, b) set. -/
theorem ct_fold_isSome_of_mem :
    ∀ (ps : List ((String × String) × List String))
      (res : List (String × List (String × List String))) (a b : String),
      (∀ e ∈ ps, (alookup e.1.1 res).isSome = true ∧
        (alookup e.1.2 res).isSome = true) →
      (∃ e ∈ ps, e.1 = (a, b) ∨ e.1 = (b, a)) →
      (lookup2 (ps.foldl ct_step res) a b).isSome = true := by
  intro ps
  induction ps with
  | nil => intro res a b h hex; simp at hex
  | cons e rest ih =>
    intro res a b h hex
    simp only [List.foldl_cons]
    obtain ⟨e2, he2, hor⟩ := hex
    rcases List.mem_cons.mp he2 with rfl | he3
    · apply ct_fold_isSome_mono
      · intro e3 he3
        rw [ct_step_isSome, ct_step_isSome]
        exact h e3 (List.mem_cons_of_mem e2 he3)
      · have hh := h e2 (List.mem_cons_self e2 rest)
        rw [lookup2_ct_step res e2 a b hh.1 hh.2]
        rcases hor with h4 | h4
        · rw [if_pos (Or.inl ⟨by rw [h4], by rw [h4]⟩)]; rfl
        · rw [if_pos (Or.inr ⟨by rw [h4], by rw [h4]⟩)]; rfl
    · apply ih
      · intro e3 he4
        rw [ct_step_isSome, ct_step_isSome]
        exact h e3 (List.mem_cons_of_mem e he4)
      · exact ⟨e2, he3, hor⟩

/-- Folding the recording steps never changes which outer keys exist. -/
theorem ct_fold_isSome_keys :
    ∀ (ps : List ((String × String) × List String))
      (res : List (String × List (String × List String))) (s : String),
      (alookup s (ps.foldl ct_step res)).isSome = (alookup s res).isSome := by
  intro ps
  induction ps with
  | nil => intro res s; rfl
  | cons e rest ih =>
    intro res s
    simp only [List.foldl_cons]
    rw [ih, ct_step_isSome]

/-- Lookup in the initial all-empty table. -/
theorem alookup_map_empty (ids : List String) (s : String) :
    alookup s (ids.map fun i => (i, ([] : List (String × List String)))) =
      if s ∈ ids then some [] else none := by
  induction ids with
  | nil => rfl
  | cons i rest ih =>
    simp only [List.map_cons, alookup]
    by_cases hi : i = s
    · subst hi
      simp
    · rw [if_neg hi, ih]
      by_cases hs : s ∈ rest
      · simp [hs, Ne.symm hi]
      · simp [hs, Ne.symm hi]

/-- Every cell of the initial all-empty table is unset. -/
theorem lookup2_map_empty (ids : List String) (a b : String) :
    lookup2 (ids.map fun i => (i, ([] : List (String × List String)))) a b =
      none := by
  unfold lookup2
  rw [alookup_map_empty]
  by_cases ha : a ∈ ids
  · simp [ha, alookup]
  · simp [ha]

/-- Both members of an enumerated pair belong to the enumerated list. -/
theorem ordered_pairs_mem :
    ∀ (l : List String) (p : String × String),
      p ∈ ordered_pairs l → p.1 ∈ l ∧ p.2 ∈ l := by
  intro l
  induction l with
  | nil => intro p h; simp [ordered_pairs] at h
  | cons x rest ih =>
    intro p h
    simp only [ordered_pairs, List.mem_append] at h
    rcases h with h1 | h2
    · obtain ⟨y, hy, rfl⟩ := List.mem_map.mp h1
      exact ⟨List.mem_cons_self x rest, List.mem_cons_of_mem x hy⟩
    · obtain ⟨hp1, hp2⟩ := ih p h2
      exact ⟨List.mem_cons_of_mem x hp1, List.mem_cons_of_mem x hp2⟩

/-- Two distinct members of the list appear as an enumerated pair in one of
the two orientations. -/
theorem ordered_pairs_complete :
    ∀ (l : List String) (a b : String), a ≠ b → a ∈ l → b ∈ l →
      (a, b) ∈ ordered_pairs l ∨ (b, a) ∈ ordered_pairs l := by
  intro l
  induction l with
  | nil => intro a b hne ha hb; simp at ha
  | cons x rest ih =>
    intro a b hne ha hb
    simp only [ordered_pairs, List.mem_append]
    rcases List.mem_cons.mp ha with rfl | ha2
    · rcases List.mem_cons.mp hb with rfl | hb2
      · exact absurd rfl hne
      · exact Or.inl (Or.inl (List.mem_map.mpr ⟨b, hb2, rfl⟩))
    · rcases List.mem_cons.mp hb with rfl | hb2
      · exact Or.inr (Or.inl (List.mem_map.mpr ⟨a, ha2, rfl⟩))
      · rcases ih a b hne ha2 hb2 with h1 | h1
        · exact Or.inl (Or.inr h1)
        · exact Or.inr (Or.inr h1)

/-- Keys found by lookup are exactly the mapped first components. -/
theorem alookup_isSome_iff_mem (k : String) :
    ∀ l : List (String × β),
      (alookup k l).isSome = true ↔ k ∈ l.map Prod.fst := by
  intro l
  induction l with
  | nil => simp [alookup]
  | cons e rest ih =>
    obtain ⟨k2, v⟩ := e
    by_cases hk : k2 = k
    · subst hk
      simp [alookup]
    · simp only [alookup, if_neg hk, List.map_cons, List.mem_cons]
      rw [ih]
      constructor
      · exact fun h => Or.inr h
      · rintro (rfl | h)
        · exact absurd rfl hk
        · exact h

/-- Sharing a track is symmetric in the two shots. -/
theorem shared_tracks_ne_nil_comm (g : TracksManager) (a b : String)
    (h : shared_tracks g a b ≠ []) : shared_tracks g b a ≠ [] := by
  obtain ⟨t, ht⟩ := List.exists_mem_of_ne_nil _ h
  have ht2 := List.mem_filter.mp ht
  apply List.ne_nil_of_mem (a := t)
  exact List.mem_filter.mpr ⟨by simpa using ht2.2, by simpa using ht2.1⟩

/-- A shot sharing a track with another is a key of the graph. -/
theorem mem_keys_of_shared_left (g : TracksManager) (a b : String)
    (h : shared_tracks g a b ≠ []) : a ∈ get_shot_ids g := by
  have hobs : get_shot_observations g a ≠ [] := by
    intro hnil
    apply h
    unfold shared_tracks
    rw [hnil]
    rfl
  rw [get_shot_ids, ← alookup_isSome_iff_mem]
  unfold get_shot_observations at hobs
  cases hl : alookup a g with
  | none => rw [hl] at hobs; simp at hobs
  | some d => rfl

/-- Both members of a pair produced for the common-track table are keys of
the graph. -/
theorem all_common_tracks_comp_mem (g : TracksManager) :
    ∀ e ∈ all_common_tracks_without_features g,
      e.1.1 ∈ get_shot_ids g ∧ e.1.2 ∈ get_shot_ids g := by
  intro e he
  obtain ⟨ab, hab, hf⟩ := List.mem_filterMap.mp he
  by_cases hemp : (shared_tracks g ab.1 ab.2).isEmpty
  · rw [if_pos hemp] at hf
    exact Option.noConfusion hf
  · rw [if_neg hemp] at hf
    cases hf
    exact ordered_pairs_mem (get_shot_ids g) ab hab

/-- Every pair of distinct shots sharing a track is recorded (in one of the
two orientations) by the pair enumeration. -/
theorem mem_all_common_tracks (g : TracksManager) (a b : String) (hne : a ≠ b)
    (hsh : shared_tracks g a b ≠ []) :
    ∃ e ∈ all_common_tracks_without_features g,
      e.1 = (a, b) ∨ e.1 = (b, a) := by
  have ha : a ∈ get_shot_ids g := mem_keys_of_shared_left g a b hsh
  have hb : b ∈ get_shot_ids g :=
    mem_keys_of_shared_left g b a (shared_tracks_ne_nil_comm g a b hsh)
  rcases ordered_pairs_complete (get_shot_ids g) a b hne ha hb with hp | hp
  · refine ⟨((a, b), shared_tracks g a b), ?_, Or.inl rfl⟩
    apply List.mem_filterMap.mpr
    refine ⟨(a, b), hp, ?_⟩
    rw [if_neg (by simpa using hsh)]
  · refine ⟨((b, a), shared_tracks g b a), ?_, Or.inr rfl⟩
    apply List.mem_filterMap.mpr
    refine ⟨(b, a), hp, ?_⟩
    rw [if_neg (by simpa using shared_tracks_ne_nil_comm g a b hsh)]

/-- C5: the common-track table is symmetric (table[a][b] = table[b][a] for
all a, b, the cell being set whenever the two distinct shots share at least
one track), and it has an outer key for every shot id of the track graph,
including shots sharing tracks with no one. -/
theorem C5_common_tracks_table (g : TracksManager) :
    (∀ a b, lookup2 (common_tracks_double_dict g) a b =
      lookup2 (common_tracks_double_dict g) b a) ∧
    (∀ a b, a ≠ b → shared_tracks g a b ≠ [] →
      (lookup2 (common_tracks_double_dict g) a b).isSome = true) ∧
    (∀ s ∈ get_shot_ids g,
      (alookup s (common_tracks_double_dict g)).isSome = true) := by
  have hcomp : ∀ e ∈ all_common_tracks_without_features g,
      (alookup e.1.1 ((get_shot_ids g).map fun i =>
        (i, ([] : List (String × List String))))).isSome = true ∧
      (alookup e.1.2 ((get_shot_ids g).map fun i =>
        (i, ([] : List (String × List String))))).isSome = true := by
    intro e he
    obtain ⟨h1, h2⟩ := all_common_tracks_comp_mem g e he
    constructor
    · rw [alookup_map_empty, if_pos h1]; rfl
    · rw [alookup_map_empty, if_pos h2]; rfl
  refine ⟨?_, ?_, ?_⟩
  · intro a b
    exact ct_fold_sym (all_common_tracks_without_features g) _ hcomp
      (fun a2 b2 => by rw [lookup2_map_empty, lookup2_map_empty]) a b
  · intro a b hne hsh
    exact ct_fold_isSome_of_mem (all_common_tracks_without_features g) _ a b
      hcomp (mem_all_common_tracks g a b hne hsh)
  · intro s hs
    unfold common_tracks_double_dict
    rw [ct_fold_isSome_keys, alookup_map_empty, if_pos hs]
    rfl

/-- C5 witness: shots A and B share track t1 while C shares nothing; the
built table is symmetric and defined at (A, B) and still has a key for C. -/
theorem C5_common_tracks_table_check :
    lookup2 (common_tracks_double_dict
        [("A", ["t1"]), ("B", ["t1"]), ("C", [])]) "A" "B" =
      lookup2 (common_tracks_double_dict
        [("A", ["t1"]), ("B", ["t1"]), ("C", [])]) "B" "A" ∧
    (lookup2 (common_tracks_double_dict
        [("A", ["t1"]), ("B", ["t1"]), ("C", [])]) "A" "B").isSome = true ∧
    (alookup "C" (common_tracks_double_dict
        [("A", ["t1"]), ("B", ["t1"]), ("C", [])])).isSome = true := by
  have h := C5_common_tracks_table [("A", ["t1"]), ("B", ["t1"]), ("C", [])]
  refine ⟨h.1 "A" "B", h.2.1 "A" "B" (by decide) (by decide), h.2.2 "C" (by decide)⟩
